import Mathlib

/-!
Verification development for the TaskWeaver workflow engine
(`src/core/Workflow.ts`, `src/core/Workflow2` draft, `src/types/TaskTypes.ts`).

The TypeScript source is shallowly embedded:
* JS objects used as string-keyed records become association lists
  (`List (String × _)`) with first-match lookup and insertion-order append,
  matching `Record<string, _>` semantics.
* JS `Set<string>` becomes a duplicate-free `List String` built with
  `addUnique` (insertion order, `add` is a no-op on an existing element).
* Task actions, timeouts and retries are driven by an attempt oracle
  `Nat → Except String RVal`: the outcome of `await withTimeout(task.action(), …)`
  on the k-th attempt (an `Except.error` covers both a rejected action and
  the `Task timed out` rejection).
* Lifecycle hooks hold no engine state; only their presence matters to the
  engine (`this.onTaskStart && await this.onTaskStart(task)`), so they are
  embedded as `Bool` presence flags and their invocations are recorded as
  events in an execution trace.
-/

set_option autoImplicit false

namespace TaskWeaver

/-- Result values stored in `this.results`. The engine never inspects them
(only branch/`runIf` predicates do), so a fixed carrier type suffices. -/
abbrev RVal := String

/-- Accumulated results mapping `this.results : Record<string, any>`. -/
abbrev Results := List (String × RVal)

/-- One element of `Task.branches` from `TaskTypes.ts`:
`{ condition: (result: any) => boolean; next: string[] }`.
The engine calls `branch.condition(this.results)`. -/
structure Branch where
  condition : Results → Bool
  next : List String

/-- `Task.retry = { maxAttempts: number; delay: number }`. -/
structure RetryPolicy where
  maxAttempts : Nat
  delay : Nat
deriving DecidableEq

/-- The `Task` interface from `TaskTypes.ts`, restricted to the fields the
scheduling engine reads.  `next: string | string[]` is normalized to a list,
exactly as `Array.isArray(task.next) ? task.next : [task.next]` does.
Hooks are presence flags (see the module comment). -/
structure Task where
  name : String
  dependencies : Option (List String)
  branches : Option (List Branch)
  dflt : Option (List String)
  next : Option (List String)
  timeout : Option Nat
  retry : Option RetryPolicy
  hasOnStart : Bool
  hasOnComplete : Bool
  hasOnError : Bool
  runIf : Option (Results → Bool)

/-- A task with every optional field absent and no hooks; concrete test
tasks below override the fields they need. -/
def baseTask (n : String) : Task :=
  { name := n, dependencies := none, branches := none, dflt := none,
    next := none, timeout := none, retry := none,
    hasOnStart := false, hasOnComplete := false, hasOnError := false,
    runIf := none }

/-! ### String-keyed records (JS objects) -/

/-- First-match lookup in a string-keyed record, `obj[k]`. -/
def recGet {α : Type} (m : List (String × α)) (k : String) : Option α :=
  match m with
  | [] => none
  | (k', v) :: rest => if k' = k then some v else recGet rest k

/-- `obj[k] !== undefined`. -/
def hasKey {α : Type} (m : List (String × α)) (k : String) : Bool :=
  (recGet m k).isSome

/-- `obj[k] = v`: overwrite in place if the key exists, else append
(JS property insertion order). -/
def recSet {α : Type} (m : List (String × α)) (k : String) (v : α) :
    List (String × α) :=
  if hasKey m k then m.map (fun p => (p.1, if p.1 = k then v else p.2))
  else m ++ [(k, v)]

/-- JS `Set.add` on a set represented as a duplicate-free list. -/
def addUnique (l : List String) (x : String) : List String :=
  if x ∈ l then l else l ++ [x]

/-! ### The dependency graph builder, `createDependencyList`
(`Workflow.ts`, lines 48–108; byte-identical in the `Workflow2` draft).

The adjacency list maps each task name to the set of tasks that point at it.
Note what the source does — and does not — read: edges are collected from
`task.next`, `task.default` and `task.branches`; the declared
`task.dependencies` field is never consulted here. -/

/-- The adjacency record `Record<string, Set<string>>`. -/
abbrev AdjList := List (String × List String)

/-- `if (!adjacencyList[k]) adjacencyList[k] = new Set();` -/
def ensureKey (m : AdjList) (k : String) : AdjList :=
  if hasKey m k then m else m ++ [(k, [])]

/-- `adjacencyList[tgt].add(src)` on an existing key: the set stored under
the matching key is mutated in place, all other entries are untouched. -/
def setAdd (m : AdjList) (k v : String) : AdjList :=
  m.map (fun p => (p.1, if p.1 = k then (if v ∈ p.2 then p.2 else p.2 ++ [v]) else p.2))

/-- The two-line idiom
`if (!adjacencyList[tgt]) … = new Set(); adjacencyList[tgt].add(src)`. -/
def addEdge (m : AdjList) (tgt src : String) : AdjList :=
  setAdd (ensureKey m tgt) tgt src

/-- `targets.forEach(tgt => addEdge tgt src)`. -/
def addEdges (m : AdjList) (targets : List String) (src : String) : AdjList :=
  targets.foldl (fun a tgt => addEdge a tgt src) m

/-- `task.next`, normalized to a list. -/
def nextTargets (t : Task) : List String := t.next.getD []

/-- `task.default`, normalized to a list. -/
def defaultTargets (t : Task) : List String := t.dflt.getD []

/-- All branch targets of a task, in declaration order. -/
def branchTargets (t : Task) : List String :=
  (t.branches.getD []).foldr (fun b acc => b.next ++ acc) []

/-- Body of the `tasks.forEach(task => …)` in `createDependencyList`:
initialize the task's own key, then record in-edges from `next`, `default`,
every branch, and (as the source does, redundantly) `default` a second time. -/
def processTask (m : AdjList) (t : Task) : AdjList :=
  let m1 := ensureKey m t.name
  let m2 := addEdges m1 (nextTargets t) t.name
  let m3 := addEdges m2 (defaultTargets t) t.name
  let m4 := (t.branches.getD []).foldl (fun a b => addEdges a b.next t.name) m3
  addEdges m4 (defaultTargets t) t.name

/-- `createDependencyList(tasks)` (`Workflow.ts`, lines 48–108).  The final
`Array.from` conversion is the identity under the list representation. -/
def createDependencyList (tasks : List Task) : AdjList :=
  tasks.foldl processTask []

/-- Observation: `src` is recorded as a required predecessor of `tgt`
(a missing key reads as the empty set). -/
def memAdj (m : AdjList) (tgt src : String) : Bool :=
  ((recGet m tgt).getD []).contains src

/-! ### Workflow state (`Workflow.ts`, fields and constructor, lines 5–46) -/

/-- `this.status` values. -/
inductive WStatus where
  | Pending
  | Running
  | Completed
  | Failed
  | Cancelled
deriving DecidableEq

/-- One entry of `this.logs.tasks[name]` / `this.logs.workflow`
(timestamps and free-text details are dropped; the event tag, attempt
number and status string are kept). -/
structure LogEntry where
  event : String
  attempt : Option Nat
  status : String
deriving DecidableEq

/-- The mutable fields of a `Workflow` instance.  `taskLogs` is `Option`al
because `this.logs` starts as `{}`: `this.logs.tasks` is `undefined` until
`executeTask` first initializes it — `addTask` reads it without a guard.
`listeners` records `eventEmitter` subscriptions `(depName, taskName)`
meaning: on `task-completed:depName`, re-attempt `taskName`. -/
structure WState where
  tasks : List (String × Task)
  results : Results
  status : WStatus
  dependencyList : AdjList
  completedTasks : List String
  startedTasks : List String
  taskLogs : Option (List (String × List LogEntry))
  workflowLog : List LogEntry
  listeners : List (String × String)

/-- The `Workflow` constructor: keys the tasks by name (later duplicates
overwrite, as `tasks.reduce((acc, task) => { acc[task.name] = task … })`
does), starts `Pending` with empty results/sets, builds the dependency
list, and leaves `this.logs = {}` (so `logs.tasks` is absent). -/
def mkWorkflow (ts : List Task) : WState :=
  { tasks := ts.foldl (fun a t => recSet a t.name t) [],
    results := [],
    status := WStatus.Pending,
    dependencyList := createDependencyList ts,
    completedTasks := [],
    startedTasks := [],
    taskLogs := none,
    workflowLog := [],
    listeners := [] }

/-- `getDependenciesList()` (`Workflow.ts`, lines 438–440): returns the
internal dependency list. -/
def getDependenciesList (s : WState) : AdjList := s.dependencyList

/-- Workflow-level hook presence (`options.onTaskStart` …), see the module
comment on hooks-as-flags. -/
structure WConfig where
  hasOnTaskStart : Bool
  hasOnTaskComplete : Bool
  hasOnTaskError : Bool

/-- A workflow constructed without workflow-level hooks. -/
def noHooks : WConfig :=
  { hasOnTaskStart := false, hasOnTaskComplete := false, hasOnTaskError := false }

/-! ### `attemptToStartTask` (`Workflow.ts`, lines 157–196) -/

/-- How a call to `attemptToStartTask` returns.  `waitForDeps deps` means
the early return after registering an `eventEmitter.on` listener per
dependency; `blockedByBranch` the early return from the branch-condition
scan; `execute` means control reached `this.executeTask(taskName)`. -/
inductive AttemptOutcome where
  | alreadyDone
  | waitForDeps (deps : List String)
  | blockedByBranch
  | execute
deriving DecidableEq

/-- The branch-scan in `attemptToStartTask`: for a dependency `dep` of
`taskName`, the loop returns early exactly when some branch of
`this.tasks[dep]` lists `taskName` among its targets and its condition is
false on the current results. -/
def depBranchBlocks (s : WState) (taskName dep : String) : Bool :=
  match recGet s.tasks dep with
  | some dt => (dt.branches.getD []).any
      (fun b => b.next.contains taskName && !(b.condition s.results))
  | none => false

/-- `attemptToStartTask(taskName)` (`Workflow.ts`, lines 157–196): return if
already completed/started; if some entry of `dependencyList[taskName]` is
not completed, subscribe and wait; if a dependency's branch targeting this
task has a false condition, return; otherwise enter `executeTask`. -/
def attemptToStartTask (s : WState) (taskName : String) : AttemptOutcome :=
  if taskName ∈ s.completedTasks ∨ taskName ∈ s.startedTasks then
    AttemptOutcome.alreadyDone
  else
    let deps := (recGet s.dependencyList taskName).getD []
    if deps.any (fun d => !(s.completedTasks.contains d)) then
      AttemptOutcome.waitForDeps deps
    else if deps.any (fun d => depBranchBlocks s taskName d) then
      AttemptOutcome.blockedByBranch
    else
      AttemptOutcome.execute

/-! ### The execution pipeline, `executeTask`
(`Workflow.ts`, lines 198–283) -/

/-- Trace events recorded while the pipeline runs, in program order.
`emitTaskCompleted` is `this.eventEmitter.emit('task-completed:' + name)`;
the six hook events record the actual invocations of the workflow-level
(`this.onTask…`) and task-level (`task.on…`) callbacks. -/
inductive Ev where
  | taskStarted (task : String) (attempt : Nat)
  | wfHookStart (task : String) (attempt : Nat)
  | taskHookStart (task : String) (attempt : Nat)
  | taskCompleted (task : String) (attempt : Nat)
  | wfHookComplete (task : String) (attempt : Nat)
  | taskHookComplete (task : String) (attempt : Nat)
  | taskFailed (task : String) (attempt : Nat)
  | wfHookError (task : String) (attempt : Nat)
  | taskHookError (task : String) (attempt : Nat)
  | emitTaskCompleted (task : String)
  | delay (ms : Nat)
deriving DecidableEq

def isStart : Ev → Bool
  | Ev.taskStarted _ _ => true
  | _ => false

def isDelay : Ev → Bool
  | Ev.delay _ => true
  | _ => false

/-- `this.onTaskX && await this.onTaskX(…)`: one event if the hook is
present, nothing otherwise. -/
def hookList (flag : Bool) (e : Ev) : List Ev :=
  if flag then [e] else []

/-- The events of one iteration of the retry loop except the inter-attempt
delay: the `TaskStarted` log point, the two `onStart` hook invocations
(workflow-level first, then task-level, as written on lines 235–236), then
either the success tail (lines 239–260: completion log point, the two
`onComplete` invocations, the completion emit) or the failure tail
(lines 262–276: failure log point, the two `onError` invocations). -/
def attemptRest (wf : WConfig) (t : Task) (taskName : String) (attempt : Nat)
    (out : Except String RVal) : List Ev :=
  hookList wf.hasOnTaskStart (Ev.wfHookStart taskName attempt) ++
  hookList t.hasOnStart (Ev.taskHookStart taskName attempt) ++
  (match out with
   | Except.ok _ =>
      Ev.taskCompleted taskName attempt ::
        (hookList wf.hasOnTaskComplete (Ev.wfHookComplete taskName attempt) ++
         hookList t.hasOnComplete (Ev.taskHookComplete taskName attempt) ++
         [Ev.emitTaskCompleted taskName])
   | Except.error _ =>
      Ev.taskFailed taskName attempt ::
        (hookList wf.hasOnTaskError (Ev.wfHookError taskName attempt) ++
         hookList t.hasOnError (Ev.taskHookError taskName attempt)))

def attemptEvents (wf : WConfig) (t : Task) (taskName : String) (attempt : Nat)
    (out : Except String RVal) : List Ev :=
  Ev.taskStarted taskName attempt :: attemptRest wf t taskName attempt out

/-- Append an entry to `this.logs.tasks[k]` (the `… = … || []; push` idiom). -/
def pushLogEntry (m : List (String × List LogEntry)) (k : String) (e : LogEntry) :
    List (String × List LogEntry) :=
  if hasKey m k then m.map (fun p => (p.1, if p.1 = k then p.2 ++ [e] else p.2))
  else m ++ [(k, [e])]

/-- `this.logs.tasks[taskName].push(entry)` on the workflow state. -/
def pushTaskLog (s : WState) (k : String) (e : LogEntry) : WState :=
  { s with taskLogs := some (pushLogEntry (s.taskLogs.getD []) k e) }

/-- `if (!this.logs.tasks) this.logs.tasks = {};
if (!this.logs.tasks[taskName]) this.logs.tasks[taskName] = [];` -/
def initTaskLog (s : WState) (k : String) : WState :=
  let m := s.taskLogs.getD []
  { s with taskLogs := some (if hasKey m k then m else m ++ [(k, [])]) }

/-- The per-task log bucket, for stating properties. -/
def taskLogEntries (s : WState) (k : String) : List LogEntry :=
  (recGet (s.taskLogs.getD []) k).getD []

/-- The `WorkflowCompleted` entry pushed by `checkIfAllTasksCompleted`. -/
def workflowCompletedEntry : LogEntry :=
  { event := "WorkflowCompleted", attempt := none, status := "Completed" }

/-- The `TaskStarted` entry logged at the top of attempt `k`. -/
def startedEntry (k : Nat) : LogEntry :=
  { event := "TaskStarted", attempt := some k, status := "Started" }

/-- The `TaskCompleted` entry logged when attempt `k` succeeds. -/
def completedEntry (k : Nat) : LogEntry :=
  { event := "TaskCompleted", attempt := some k, status := "Completed" }

/-- The `TaskFailed` entry logged when attempt `k` fails. -/
def failedEntry (k : Nat) : LogEntry :=
  { event := "TaskFailed", attempt := some k, status := "Failed" }

/-- `checkIfAllTasksCompleted` (`Workflow.ts`, lines 415–432): when
`Object.keys(this.tasks).length === this.completedTasks.size`, push a
`WorkflowCompleted` entry onto `this.logs.workflow`.  Nothing else — in
particular `this.status` is not assigned. -/
def checkIfAllTasksCompleted (s : WState) : WState :=
  if s.tasks.length = s.completedTasks.length then
    { s with workflowLog := s.workflowLog ++ [workflowCompletedEntry] }
  else s

/-- `task.retry?.maxAttempts ?? 1`. -/
def maxAttemptsOf (t : Task) : Nat :=
  (t.retry.map RetryPolicy.maxAttempts).getD 1

/-- `task.retry?.delay ?? 0`. -/
def retryDelayOf (t : Task) : Nat :=
  (t.retry.map RetryPolicy.delay).getD 0

/-- The retry loop `while (attempts < maxAttempts && !success)`
(`Workflow.ts`, lines 220–282), rendered as recursion over the list of
remaining attempt indices (`attemptNums maxAttempts` below supplies
`[1, …, maxAttempts]`).  The oracle gives, per attempt, the settled outcome
of `await this.withTimeout(task.action(), task.timeout ?? Infinity)`.
On success: add to `completedTasks`, record the result, push the
`TaskCompleted` log entry, and (after the hooks and the completion emit,
which are trace events) run `checkIfAllTasksCompleted`.  On failure: push
the `TaskFailed` log entry and, iff attempts remain
(`attempts < maxAttempts`, i.e. the remaining-index list is nonempty),
`await wait(delay)` before looping. -/
def runLoop (wf : WConfig) (t : Task) (taskName : String)
    (oracle : Nat → Except String RVal) :
    List Nat → WState → WState × List Ev
  | [], s => (s, [])
  | k :: rest, s =>
    let s1 := pushTaskLog s taskName (startedEntry k)
    match oracle k with
    | Except.ok v =>
      let s2 := { s1 with
        completedTasks := addUnique s1.completedTasks taskName,
        results := recSet s1.results taskName v }
      let s3 := pushTaskLog s2 taskName (completedEntry k)
      let s4 := checkIfAllTasksCompleted s3
      (s4, attemptEvents wf t taskName k (Except.ok v))
    | Except.error e =>
      let s2 := pushTaskLog s1 taskName (failedEntry k)
      if rest.isEmpty then (s2, attemptEvents wf t taskName k (Except.error e))
      else
        let res := runLoop wf t taskName oracle rest s2
        (res.1, attemptEvents wf t taskName k (Except.error e) ++
          Ev.delay (retryDelayOf t) :: res.2)

/-- Attempt indices `1, …, maxAttempts` taken by the `attempts` counter. -/
def attemptNums (maxAttempts : Nat) : List Nat :=
  (List.range maxAttempts).map (fun i => i + 1)

/-- `runIf` guard of `executeTask`: `task.runIf && !task.runIf(this.results)`. -/
def runIfBlocks (t : Task) (rs : Results) : Bool :=
  match t.runIf with
  | some p => !(p rs)
  | none => false

/-- `executeTask(taskName)` (`Workflow.ts`, lines 198–283): bail out if
already started; look the task up (the source would throw on a missing
name — unreachable from `attemptToStartTask`, embedded as a no-op return);
return silently when `runIf` is present and false; otherwise mark started,
initialize this task's log bucket, and enter the retry loop. -/
def executeTask (wf : WConfig) (s : WState) (taskName : String)
    (oracle : Nat → Except String RVal) : WState × List Ev :=
  if taskName ∈ s.startedTasks then (s, [])
  else
    match recGet s.tasks taskName with
    | none => (s, [])
    | some t =>
      if runIfBlocks t s.results then (s, [])
      else
        runLoop wf t taskName oracle (attemptNums (maxAttemptsOf t))
          (initTaskLog { s with startedTasks := addUnique s.startedTasks taskName }
            taskName)

/-! ### `triggerNextTasks` (the `Workflow2` draft, `unnamed/part_002`,
lines 245–265) -/

/-- `triggerNextTasks(completedTaskName)`: emit `start-task:` signals for
every unconditional `next` target; then scan `branches`, emitting for every
branch whose condition holds on the full results mapping and clearing the
`allBranchesFalse` flag; finally, if no branch condition held, emit for the
`default` targets.  Returns the emitted target names in order. -/
def triggerNextTasks (t : Task) (results : Results) : List String :=
  let nextEmits := t.next.getD []
  let branchScan := (t.branches.getD []).foldl
    (fun (p : Bool × List String) b =>
      if b.condition results then (false, p.2 ++ b.next) else p)
    (true, [])
  nextEmits ++ branchScan.2 ++
    (if branchScan.1 then t.dflt.getD [] else [])

/-! ### `addTask` (`Workflow.ts`, lines 354–413) -/

/-- Which control path `addTask` took: logged duplicate rejection;
registered `eventEmitter.once` subscriptions for the declared dependencies
and returned; or fell through to `this.attemptToStartTask(task.name)`. -/
inductive AddResult where
  | rejectedDuplicate
  | subscribed (deps : List String)
  | attemptedStart
deriving DecidableEq

/-- `addTask(task)` (`Workflow.ts`, lines 354–413).  The returned state
reflects every mutation performed before a `throw`, as in JS.  Throws are
`Except.error`: reading `this.logs.tasks[…]` while `this.logs.tasks` is
still `undefined` raises a `TypeError`; a declared dependency that is not
in `this.tasks` raises the configuration `Error` — note the task itself
was already registered and logged by then, and `this.tasks[task.name]`
is visible to its own dependency check. -/
def addTask (s : WState) (t : Task) : WState × Except String AddResult :=
  if hasKey s.tasks t.name then
    match s.taskLogs with
    | none => (s, Except.error "TypeError: this.logs.tasks is undefined")
    | some m =>
      ({ s with taskLogs := some (pushLogEntry m t.name
          { event := "TaskAlreadyExists", attempt := none, status := "Skipped" }) },
       Except.ok AddResult.rejectedDuplicate)
  else
    let s1 := { s with tasks := recSet s.tasks t.name t }
    match s1.taskLogs with
    | none => (s1, Except.error "TypeError: this.logs.tasks is undefined")
    | some m =>
      let s2 := { s1 with taskLogs := some (pushLogEntry m t.name
          { event := "TaskAdded", attempt := none, status := "Pending" }) }
      match t.dependencies with
      | none => (s2, Except.ok AddResult.attemptedStart)
      | some deps =>
        if deps.isEmpty then (s2, Except.ok AddResult.attemptedStart)
        else if deps.any (fun d => !(hasKey s2.tasks d)) then
          (s2, Except.error "Error: dependency does not exist")
        else
          let s3 := { s2 with
            dependencyList := recSet s2.dependencyList t.name deps,
            listeners := s2.listeners ++ deps.map (fun d => (d, t.name)) }
          let s4 := pushTaskLog s3 t.name
            { event := "DependenciesRegistered", attempt := none, status := "Waiting" }
          (s4, Except.ok (AddResult.subscribed deps))

/-! ### Trace observations -/

/-- The inter-attempt delays appearing in a trace, in order. -/
def delaysOf (tr : List Ev) : List Nat :=
  tr.filterMap (fun e => match e with | Ev.delay d => some d | _ => none)

/-- Index of the first occurrence of an event in a trace (length if absent);
used to state that one invocation happens before another. -/
def posOf (l : List Ev) (e : Ev) : Nat :=
  match l with
  | [] => 0
  | x :: xs => if x = e then 0 else posOf xs e + 1

/-! ### The required-predecessors map as the specification words it -/

/-- Modelled from the spec sentence
"`requiredPredecessors: name → set<name>` = declared `dependencies` ∪
{P : P.next ∋ this task} (only *unconditional* edges contribute to the
join set; branch/default edges do not)" — the reference point a refinement
claim compares `createDependencyList` against. -/
def requiredPredecessorsSpec (ts : List Task) (name : String) : List String :=
  (match ts.find? (fun t => t.name == name) with
   | some t => t.dependencies.getD []
   | none => []) ++
  (ts.filter (fun p => (nextTargets p).contains name)).map Task.name

/-! ### Concrete fixtures used by counterexamples and witnesses -/

/-- Three tasks: `T` declares `dependencies: ['A', 'B']`; nobody has edges. -/
def fixtureC1 : WState :=
  mkWorkflow [baseTask "A", baseTask "B",
    { baseTask "T" with dependencies := some ["A", "B"] }]

/-- Task set for the graph-builder claim: `P` reaches `T` through a branch,
`F` reaches `T` through `default`, and `T` declares a dependency on `D`. -/
def tasksC2 : List Task :=
  [baseTask "D",
   { baseTask "P" with branches := some [{ condition := fun _ => true, next := ["T"] }] },
   { baseTask "F" with dflt := some ["T"] },
   { baseTask "T" with dependencies := some ["D"] }]

/-- A one-task workflow whose single task succeeds at once. -/
def fixtureOne : WState := mkWorkflow [baseTask "t"]

/-- An attempt oracle whose action always resolves. -/
def okOracle : Nat → Except String RVal := fun _ => Except.ok "v"

/-- A task carrying all three task-level hooks. -/
def taskAllHooks : Task :=
  { baseTask "t" with hasOnStart := true, hasOnComplete := true, hasOnError := true }

/-- Workflow-level hooks all present. -/
def allWfHooks : WConfig :=
  { hasOnTaskStart := true, hasOnTaskComplete := true, hasOnTaskError := true }

/-- A task whose `runIf` predicate is present and false. -/
def taskRunIfFalse : Task := { baseTask "t" with runIf := some (fun _ => false) }

/-- A live state in which task `A` has already run to completion (so
`logs.tasks` is initialized) — the state in which `addTask` is exercised. -/
def fixtureAfterA : WState :=
  { tasks := [("A", baseTask "A")],
    results := [("A", "ra")],
    status := WStatus.Pending,
    dependencyList := [("A", [])],
    completedTasks := ["A"],
    startedTasks := ["A"],
    taskLogs := some [("A",
      [{ event := "TaskStarted", attempt := some 1, status := "Started" },
       { event := "TaskCompleted", attempt := some 1, status := "Completed" }])],
    workflowLog := [workflowCompletedEntry],
    listeners := [] }

/-- A task added at run time that depends on the already-completed `A`. -/
def taskDependingOnA : Task := { baseTask "T" with dependencies := some ["A"] }

/-- A task whose declared dependency `M` exists nowhere. -/
def taskMissingDep : Task := { baseTask "N" with dependencies := some ["M"] }

/-- A task with `retry = {maxAttempts: 3, delay: 500}`. -/
def taskRetry3 : Task :=
  { baseTask "t" with retry := some { maxAttempts := 3, delay := 500 } }

/-- An oracle that fails on attempts 1 and 2 and succeeds on attempt 3. -/
def failTwiceOracle : Nat → Except String RVal :=
  fun k => if k ≤ 2 then Except.error "boom" else Except.ok "v"

/-! ### Basic set lemmas -/

theorem mem_addUnique_self (l : List String) (x : String) : x ∈ addUnique l x := by
  unfold addUnique
  split
  · assumption
  · simp

theorem length_addUnique_of_not_mem (l : List String) (x : String) (h : x ∉ l) :
    (addUnique l x).length = l.length + 1 := by
  simp [addUnique, h]

/-! ### Characterization of the built adjacency list -/

theorem recGet_append_left {α : Type} (m1 m2 : List (String × α)) (k : String)
    (h : hasKey m1 k = true) : recGet (m1 ++ m2) k = recGet m1 k := by
  induction m1 with
  | nil => simp [hasKey, recGet] at h
  | cons p rest ih =>
    simp only [List.cons_append, recGet]
    split
    · rfl
    · apply ih
      simp only [hasKey, recGet] at h ⊢
      split at h
      · simp_all
      · exact h

theorem recGet_append_right {α : Type} (m1 m2 : List (String × α)) (k : String)
    (h : hasKey m1 k = false) : recGet (m1 ++ m2) k = recGet m2 k := by
  induction m1 with
  | nil => simp [recGet]
  | cons p rest ih =>
    simp only [hasKey, recGet] at h
    split at h
    · simp at h
    · simp only [List.cons_append, recGet]
      rw [if_neg (by assumption)]
      exact ih h

theorem recGet_ensureKey_self (m : AdjList) (k : String) :
    recGet (ensureKey m k) k = some ((recGet m k).getD []) := by
  unfold ensureKey
  rcases hk : recGet m k with _ | l
  · rw [if_neg (by simp [hasKey, hk]), recGet_append_right _ _ _ (by simp [hasKey, hk])]
    simp [recGet]
  · rw [if_pos (by simp [hasKey, hk])]
    simp [hk]

theorem recGet_ensureKey_other (m : AdjList) (k t : String) (h : t ≠ k) :
    recGet (ensureKey m k) t = recGet m t := by
  unfold ensureKey
  split
  · rfl
  · rcases hk : recGet m t with _ | l
    · rw [recGet_append_right _ _ _ (by simp [hasKey, hk])]
      simp [recGet, Ne.symm h]
    · rw [recGet_append_left _ _ _ (by simp [hasKey, hk])]
      exact hk

theorem recGet_setAdd_self (m : AdjList) (k v : String) :
    recGet (setAdd m k v) k =
      (recGet m k).map (fun l => if v ∈ l then l else l ++ [v]) := by
  induction m with
  | nil => simp [setAdd, recGet]
  | cons p rest ih =>
    simp only [setAdd, List.map_cons] at ih ⊢
    simp only [recGet]
    by_cases hp : p.1 = k
    · simp [hp]
    · rw [if_neg hp, if_neg hp, ih]

theorem recGet_setAdd_other (m : AdjList) (k v t : String) (h : t ≠ k) :
    recGet (setAdd m k v) t = recGet m t := by
  induction m with
  | nil => simp [setAdd, recGet]
  | cons p rest ih =>
    simp only [setAdd, List.map_cons] at ih ⊢
    simp only [recGet]
    by_cases hp : p.1 = t
    · rw [if_pos hp, if_pos hp, hp, if_neg h]
    · rw [if_neg hp, if_neg hp, ih]

theorem memAdj_addEdge (m : AdjList) (tgt src t s : String) :
    memAdj (addEdge m tgt src) t s = true ↔
      memAdj m t s = true ∨ (t = tgt ∧ s = src) := by
  unfold addEdge memAdj
  by_cases ht : t = tgt
  · subst ht
    rw [recGet_setAdd_self, recGet_ensureKey_self]
    simp only [Option.map_some', Option.getD_some, List.elem_iff]
    by_cases hv : src ∈ (recGet m t).getD []
    · rw [if_pos hv]
      constructor
      · exact fun h => Or.inl h
      · rintro (h | ⟨-, rfl⟩)
        · exact h
        · exact hv
    · rw [if_neg hv]
      simp only [List.mem_append, List.mem_singleton]
      constructor
      · rintro (h | h)
        · exact Or.inl h
        · exact Or.inr ⟨by trivial, h⟩
      · rintro (h | ⟨-, rfl⟩)
        · exact Or.inl h
        · exact Or.inr rfl
  · rw [recGet_setAdd_other _ _ _ _ ht, recGet_ensureKey_other _ _ _ ht]
    constructor
    · intro h; left; exact h
    · rintro (h | ⟨h', -⟩)
      · exact h
      · exact absurd h' ht

theorem memAdj_addEdges (m : AdjList) (targets : List String) (src t s : String) :
    memAdj (addEdges m targets src) t s = true ↔
      memAdj m t s = true ∨ (t ∈ targets ∧ s = src) := by
  induction targets generalizing m with
  | nil => simp [addEdges]
  | cons tgt rest ih =>
    rw [show addEdges m (tgt :: rest) src = addEdges (addEdge m tgt src) rest src
        from rfl, ih, memAdj_addEdge]
    simp only [List.mem_cons]
    tauto

theorem memAdj_branchFold (m : AdjList) (bs : List Branch) (src t s : String) :
    memAdj (bs.foldl (fun a b => addEdges a b.next src) m) t s = true ↔
      memAdj m t s = true ∨ ((∃ b ∈ bs, t ∈ b.next) ∧ s = src) := by
  induction bs generalizing m with
  | nil => simp
  | cons b rest ih =>
    rw [show (b :: rest).foldl (fun a b => addEdges a b.next src) m =
        rest.foldl (fun a b => addEdges a b.next src) (addEdges m b.next src)
        from rfl, ih, memAdj_addEdges]
    simp only [List.mem_cons, exists_eq_or_imp]
    tauto

theorem memAdj_ensureKey (m : AdjList) (k t s : String) :
    memAdj (ensureKey m k) t s = true ↔ memAdj m t s = true := by
  unfold memAdj
  by_cases ht : t = k
  · subst ht
    rw [recGet_ensureKey_self]
    rcases hk : recGet m t with _ | l <;> simp [hk]
  · rw [recGet_ensureKey_other _ _ _ ht]

/-- Membership in the adjacency list after processing one task: exactly the
in-edges this task contributes through `next`, `default` and its branches. -/
theorem memAdj_processTask (m : AdjList) (task : Task) (t s : String) :
    memAdj (processTask m task) t s = true ↔
      memAdj m t s = true ∨
        (s = task.name ∧
          (t ∈ nextTargets task ∨ t ∈ defaultTargets task ∨
            ∃ b ∈ task.branches.getD [], t ∈ b.next)) := by
  unfold processTask
  rw [memAdj_addEdges, memAdj_branchFold, memAdj_addEdges, memAdj_addEdges,
    memAdj_ensureKey]
  constructor
  · rintro ((((h | ⟨h1, h2⟩) | ⟨h1, h2⟩) | ⟨h1, h2⟩) | ⟨h1, h2⟩)
    · exact Or.inl h
    · exact Or.inr ⟨h2, Or.inl h1⟩
    · exact Or.inr ⟨h2, Or.inr (Or.inl h1)⟩
    · exact Or.inr ⟨h2, Or.inr (Or.inr h1)⟩
    · exact Or.inr ⟨h2, Or.inr (Or.inl h1)⟩
  · rintro (h | ⟨h2, h1 | h1 | h1⟩)
    · exact Or.inl (Or.inl (Or.inl (Or.inl h)))
    · exact Or.inl (Or.inl (Or.inl (Or.inr ⟨h1, h2⟩)))
    · exact Or.inl (Or.inl (Or.inr ⟨h1, h2⟩))
    · exact Or.inl (Or.inr ⟨h1, h2⟩)

theorem memAdj_nil (t s : String) : memAdj [] t s = false := rfl

/-- Full characterization of `createDependencyList`: `src` is recorded as a
required predecessor of `tgt` exactly when some task named `src` has an
outgoing `next`, `default` or branch edge pointing at `tgt`.  Declared
`dependencies` never contribute. -/
theorem memAdj_createDependencyList (tasks : List Task) (t s : String) :
    memAdj (createDependencyList tasks) t s = true ↔
      ∃ p ∈ tasks, s = p.name ∧
        (t ∈ nextTargets p ∨ t ∈ defaultTargets p ∨
          ∃ b ∈ p.branches.getD [], t ∈ b.next) := by
  have main : ∀ (ts : List Task) (m : AdjList),
      memAdj (ts.foldl processTask m) t s = true ↔
        memAdj m t s = true ∨
          ∃ p ∈ ts, s = p.name ∧
            (t ∈ nextTargets p ∨ t ∈ defaultTargets p ∨
              ∃ b ∈ p.branches.getD [], t ∈ b.next) := by
    intro ts
    induction ts with
    | nil => simp
    | cons task rest ih =>
      intro m
      rw [show (task :: rest).foldl processTask m =
          rest.foldl processTask (processTask m task) from rfl,
        ih, memAdj_processTask]
      constructor
      · rintro ((h | h) | ⟨p, hp, h⟩)
        · exact Or.inl h
        · exact Or.inr ⟨task, List.mem_cons_self _ _, h⟩
        · exact Or.inr ⟨p, List.mem_cons_of_mem _ hp, h⟩
      · rintro (h | ⟨p, hp, h⟩)
        · exact Or.inl (Or.inl h)
        · rcases List.mem_cons.mp hp with h' | h'
          · subst h'; exact Or.inl (Or.inr h)
          · exact Or.inr ⟨p, h', h⟩
  unfold createDependencyList
  rw [main tasks []]
  simp [memAdj_nil]

/-! ### Record update lemmas -/

theorem recGet_map_update {α : Type} (m : List (String × α)) (k t : String)
    (g : α → α) :
    recGet (m.map (fun p => (p.1, if p.1 = k then g p.2 else p.2))) t =
      if t = k then (recGet m t).map g else recGet m t := by
  induction m with
  | nil => simp [recGet]
  | cons p rest ih =>
    simp only [List.map_cons, recGet]
    by_cases hp : p.1 = t
    · rw [if_pos hp, if_pos hp]
      by_cases hk : t = k
      · rw [if_pos (hp.trans hk), if_pos hk]
        simp
      · rw [if_neg (fun h => hk (hp.symm.trans h)), if_neg hk]
    · rw [if_neg hp, if_neg hp, ih]

theorem recGet_recSet_self {α : Type} (m : List (String × α)) (k : String) (v : α) :
    recGet (recSet m k v) k = some v := by
  unfold recSet
  rcases hm : recGet m k with _ | w
  · rw [if_neg (by simp [hasKey, hm]),
      recGet_append_right _ _ _ (by simp [hasKey, hm])]
    simp [recGet]
  · rw [if_pos (by simp [hasKey, hm]),
      recGet_map_update m k k (fun _ => v), if_pos rfl, hm]
    rfl

theorem recGet_recSet_other {α : Type} (m : List (String × α)) (k v' : String)
    (v : α) (h : v' ≠ k) : recGet (recSet m k v) v' = recGet m v' := by
  unfold recSet
  split
  · rw [recGet_map_update m k v' (fun _ => v), if_neg h]
  · rcases hm : recGet m v' with _ | w
    · rw [recGet_append_right _ _ _ (by simp [hasKey, hm])]
      simp [recGet, Ne.symm h]
    · rw [recGet_append_left _ _ _ (by simp [hasKey, hm])]
      exact hm

theorem recGet_pushLogEntry_self (m : List (String × List LogEntry)) (k : String)
    (e : LogEntry) :
    recGet (pushLogEntry m k e) k = some ((recGet m k).getD [] ++ [e]) := by
  unfold pushLogEntry
  rcases hm : recGet m k with _ | l
  · rw [if_neg (by simp [hasKey, hm]),
      recGet_append_right _ _ _ (by simp [hasKey, hm])]
    simp [recGet]
  · rw [if_pos (by simp [hasKey, hm]),
      recGet_map_update m k k (fun l => l ++ [e]), if_pos rfl, hm]
    rfl

/-! ### State projection lemmas for the execution pipeline -/

theorem pushTaskLog_status (s : WState) (k : String) (e : LogEntry) :
    (pushTaskLog s k e).status = s.status := rfl

theorem pushTaskLog_tasks (s : WState) (k : String) (e : LogEntry) :
    (pushTaskLog s k e).tasks = s.tasks := rfl

theorem pushTaskLog_completedTasks (s : WState) (k : String) (e : LogEntry) :
    (pushTaskLog s k e).completedTasks = s.completedTasks := rfl

theorem pushTaskLog_startedTasks (s : WState) (k : String) (e : LogEntry) :
    (pushTaskLog s k e).startedTasks = s.startedTasks := rfl

theorem pushTaskLog_workflowLog (s : WState) (k : String) (e : LogEntry) :
    (pushTaskLog s k e).workflowLog = s.workflowLog := rfl

theorem pushTaskLog_results (s : WState) (k : String) (e : LogEntry) :
    (pushTaskLog s k e).results = s.results := rfl

theorem pushTaskLog_taskLogs (s : WState) (k : String) (e : LogEntry) :
    (pushTaskLog s k e).taskLogs =
      some (pushLogEntry (s.taskLogs.getD []) k e) := rfl

theorem checkIfAll_status (s : WState) :
    (checkIfAllTasksCompleted s).status = s.status := by
  unfold checkIfAllTasksCompleted; split <;> rfl

theorem checkIfAll_tasks (s : WState) :
    (checkIfAllTasksCompleted s).tasks = s.tasks := by
  unfold checkIfAllTasksCompleted; split <;> rfl

theorem checkIfAll_completedTasks (s : WState) :
    (checkIfAllTasksCompleted s).completedTasks = s.completedTasks := by
  unfold checkIfAllTasksCompleted; split <;> rfl

theorem checkIfAll_startedTasks (s : WState) :
    (checkIfAllTasksCompleted s).startedTasks = s.startedTasks := by
  unfold checkIfAllTasksCompleted; split <;> rfl

theorem checkIfAll_taskLogs (s : WState) :
    (checkIfAllTasksCompleted s).taskLogs = s.taskLogs := by
  unfold checkIfAllTasksCompleted; split <;> rfl

theorem checkIfAll_workflowLog (s : WState) :
    (checkIfAllTasksCompleted s).workflowLog =
      s.workflowLog ++
        (if s.tasks.length = s.completedTasks.length
         then [workflowCompletedEntry] else []) := by
  unfold checkIfAllTasksCompleted
  split <;> simp_all

/-- What one run of the retry loop can do to the scheduler state: status,
tasks, started set and dependency structures are untouched; either the run
never succeeded (completed set and workflow log unchanged) or the task was
added to the completed set, with the `WorkflowCompleted` entry appended
exactly when the count check held at that moment. -/
theorem runLoop_state (wf : WConfig) (t : Task) (n : String)
    (oracle : Nat → Except String RVal) :
    ∀ (ks : List Nat) (s : WState),
      (runLoop wf t n oracle ks s).1.status = s.status ∧
      (runLoop wf t n oracle ks s).1.tasks = s.tasks ∧
      (runLoop wf t n oracle ks s).1.startedTasks = s.startedTasks ∧
      (((runLoop wf t n oracle ks s).1.completedTasks = s.completedTasks ∧
        (runLoop wf t n oracle ks s).1.workflowLog = s.workflowLog) ∨
       ((runLoop wf t n oracle ks s).1.completedTasks = addUnique s.completedTasks n ∧
        (runLoop wf t n oracle ks s).1.workflowLog = s.workflowLog ++
          (if s.tasks.length = (addUnique s.completedTasks n).length
           then [workflowCompletedEntry] else []))) := by
  intro ks
  induction ks with
  | nil =>
    intro s
    exact ⟨rfl, rfl, rfl, Or.inl ⟨rfl, rfl⟩⟩
  | cons k rest ih =>
    intro s
    rcases ho : oracle k with e | v
    · cases hr : rest.isEmpty
      · simp only [runLoop, ho, hr, Bool.false_eq_true, if_false]
        exact ih (pushTaskLog (pushTaskLog s n (startedEntry k)) n (failedEntry k))
      · simp only [runLoop, ho, hr, if_true]
        exact ⟨rfl, rfl, rfl, Or.inl ⟨rfl, rfl⟩⟩
    · simp only [runLoop, ho]
      refine ⟨?_, ?_, ?_, Or.inr ⟨?_, ?_⟩⟩ <;>
        simp [checkIfAll_status, checkIfAll_tasks, checkIfAll_startedTasks,
          checkIfAll_completedTasks, checkIfAll_workflowLog, pushTaskLog_status,
          pushTaskLog_tasks, pushTaskLog_startedTasks, pushTaskLog_completedTasks,
          pushTaskLog_workflowLog]

/-! ### The claims -/

/-- C1: the claim "a task whose declared `dependencies` contain `A` and `B`
is never started before both are completed" fails on the code: in a
freshly constructed workflow whose task `T` declares
`dependencies = ['A', 'B']` but receives no edges, `createDependencyList`
ignores declared dependencies, so the dependency list maps `T` to the empty
set and `attemptToStartTask` — invoked on every key by `start()` — falls
through to `executeTask` while nothing at all is completed. -/
theorem spec_C1 :
    (recGet fixtureC1.tasks "T").map Task.dependencies = some (some ["A", "B"]) ∧
    recGet fixtureC1.dependencyList "T" = some [] ∧
    fixtureC1.completedTasks = [] ∧
    attemptToStartTask fixtureC1 "T" = AttemptOutcome.execute :=
  ⟨rfl, rfl, rfl, by decide⟩

/-- C2 counterexample: on the task set `tasksC2`, the code records the
branch source `P` and the default source `F` as required predecessors of
`T` but not the declared dependency `D`, while the claim's formula
(`requiredPredecessorsSpec`) yields exactly `['D']`: the two disagree in
both directions. -/
theorem spec_C2_counterexample :
    memAdj (getDependenciesList (mkWorkflow tasksC2)) "T" "P" = true ∧
    memAdj (getDependenciesList (mkWorkflow tasksC2)) "T" "F" = true ∧
    memAdj (getDependenciesList (mkWorkflow tasksC2)) "T" "D" = false ∧
    requiredPredecessorsSpec tasksC2 "T" = ["D"] ∧
    ("P" ∈ requiredPredecessorsSpec tasksC2 "T" → False) :=
  ⟨rfl, rfl, rfl, rfl, by decide⟩

/-- C2 (amended): the derived required-predecessors map joins each task to
the set of tasks having **any** outgoing edge — unconditional `next`,
branch, or default — targeting it; declared `dependencies` contribute
nothing at construction time. -/
theorem spec_C2 (tasks : List Task) (t s : String) :
    memAdj (getDependenciesList (mkWorkflow tasks)) t s = true ↔
      ∃ p ∈ tasks, s = p.name ∧
        (t ∈ nextTargets p ∨ t ∈ defaultTargets p ∨
          ∃ b ∈ p.branches.getD [], t ∈ b.next) :=
  memAdj_createDependencyList tasks t s

/-- C3 counterexample: the sole task of a one-task workflow completes, the
completed set covers the task set, a `WorkflowCompleted` entry is appended —
yet `this.status` remains `Pending`: the claimed transition of the status
field to `Completed` does not happen. -/
theorem spec_C3_counterexample :
    (executeTask noHooks fixtureOne "t" okOracle).1.completedTasks = ["t"] ∧
    (executeTask noHooks fixtureOne "t" okOracle).1.tasks.length =
      (executeTask noHooks fixtureOne "t" okOracle).1.completedTasks.length ∧
    (executeTask noHooks fixtureOne "t" okOracle).1.workflowLog =
      [workflowCompletedEntry] ∧
    (executeTask noHooks fixtureOne "t" okOracle).1.status ≠ WStatus.Completed :=
  ⟨rfl, rfl, rfl, by decide⟩

/-- C3 (amended): coverage is counted over `completedTasks` alone (failed
or skipped tasks never count), and reaching it only appends a
`WorkflowCompleted` entry to the workflow log — `executeTask` never changes
the `status` field.  Concretely: status and task map are preserved; the
workflow log either is untouched or gains exactly the `WorkflowCompleted`
entry, the latter only when the completed count equals the task count; and
when the task newly completes and the counts match, the entry is appended. -/
theorem spec_C3 (wf : WConfig) (s : WState) (n : String)
    (oracle : Nat → Except String RVal) :
    (executeTask wf s n oracle).1.status = s.status ∧
    (executeTask wf s n oracle).1.tasks = s.tasks ∧
    ((executeTask wf s n oracle).1.workflowLog = s.workflowLog ∨
      ((executeTask wf s n oracle).1.workflowLog =
          s.workflowLog ++ [workflowCompletedEntry] ∧
        (executeTask wf s n oracle).1.tasks.length =
          (executeTask wf s n oracle).1.completedTasks.length)) ∧
    (n ∉ s.completedTasks →
      n ∈ (executeTask wf s n oracle).1.completedTasks →
      s.tasks.length = (executeTask wf s n oracle).1.completedTasks.length →
      (executeTask wf s n oracle).1.workflowLog =
        s.workflowLog ++ [workflowCompletedEntry]) := by
  unfold executeTask
  split
  · exact ⟨rfl, rfl, Or.inl rfl, fun h1 h2 _ => absurd h2 h1⟩
  · split
    · exact ⟨rfl, rfl, Or.inl rfl, fun h1 h2 _ => absurd h2 h1⟩
    · rename_i t heq
      split
      · exact ⟨rfl, rfl, Or.inl rfl, fun h1 h2 _ => absurd h2 h1⟩
      · obtain ⟨hst, htk, hsd, hrest⟩ :=
          runLoop_state wf t n oracle (attemptNums (maxAttemptsOf t))
            (initTaskLog { s with startedTasks := addUnique s.startedTasks n } n)
        rw [show (initTaskLog { s with
              startedTasks := addUnique s.startedTasks n } n).status = s.status
            from rfl] at hst
        rw [show (initTaskLog { s with
              startedTasks := addUnique s.startedTasks n } n).tasks = s.tasks
            from rfl] at htk
        rw [show (initTaskLog { s with
              startedTasks := addUnique s.startedTasks n } n).completedTasks =
            s.completedTasks from rfl,
          show (initTaskLog { s with
              startedTasks := addUnique s.startedTasks n } n).workflowLog =
            s.workflowLog from rfl,
          show (initTaskLog { s with
              startedTasks := addUnique s.startedTasks n } n).tasks = s.tasks
            from rfl] at hrest
        refine ⟨hst, htk, ?_, ?_⟩
        · rcases hrest with ⟨hc, hw⟩ | ⟨hc, hw⟩
          · exact Or.inl hw
          · rw [hw, hc, htk]
            by_cases hlen : s.tasks.length = (addUnique s.completedTasks n).length
            · rw [if_pos hlen]
              exact Or.inr ⟨rfl, hlen⟩
            · rw [if_neg hlen]
              exact Or.inl (by simp)
        · intro h1 h2 h3
          rcases hrest with ⟨hc, hw⟩ | ⟨hc, hw⟩
          · rw [hc] at h2
            exact absurd h2 h1
          · rw [hc] at h3
            rw [hw, if_pos h3]

/-- C3 witness: instantiating the amended theorem on the one-task workflow
whose task succeeds immediately. -/
theorem spec_C3_witness :
    ("t" ∉ fixtureOne.completedTasks) ∧
    (executeTask noHooks fixtureOne "t" okOracle).1.workflowLog =
      fixtureOne.workflowLog ++ [workflowCompletedEntry] :=
  ⟨by decide,
   (spec_C3 noHooks fixtureOne "t" okOracle).2.2.2 (by decide) (by decide) (by decide)⟩

/-- C4: `triggerNextTasks` on a completed task with two branches — the
first matching, targeting `X` and `Y`; the second targeting `Z` — emits
start signals exactly to `X` and `Y` when only the first condition holds
(no default targets fire, whatever they are), and to `X`, `Y` **and** `Z`
when both conditions hold: branches fire independently. -/
theorem spec_C4 (t : Task) (rs : Results) (pA pB : Results → Bool)
    (x y z : String)
    (hb : t.branches = some [{ condition := pA, next := [x, y] },
                             { condition := pB, next := [z] }])
    (hnext : t.next = none)
    (hA : pA rs = true) :
    (pB rs = false → triggerNextTasks t rs = [x, y]) ∧
    (pB rs = true → triggerNextTasks t rs = [x, y, z]) := by
  constructor <;> intro hB <;>
    simp [triggerNextTasks, hb, hnext, hA, hB]

/-- C4 witness: the branch scenario of the claim with concrete names. -/
theorem spec_C4_witness :
    triggerNextTasks
      { baseTask "s" with
          branches := some [{ condition := fun _ => true, next := ["X", "Y"] },
                            { condition := fun _ => false, next := ["Z"] }],
          dflt := some ["D1"] } [] = ["X", "Y"] :=
  (spec_C4 _ [] (fun _ => true) (fun _ => false) "X" "Y" "Z" rfl rfl rfl).1 rfl

/-- C7 counterexample: when `runIf` is present and false, `executeTask`
returns before doing anything: no log entry is recorded (the claim requires
a skip entry), the task is not marked started, and no hook or trigger event
occurs — the code has no `Skipped` state transition at all. -/
theorem spec_C7_counterexample :
    (recGet (mkWorkflow [taskRunIfFalse]).tasks "t").isSome = true ∧
    (executeTask noHooks (mkWorkflow [taskRunIfFalse]) "t" okOracle).1.taskLogs = none ∧
    (executeTask noHooks (mkWorkflow [taskRunIfFalse]) "t" okOracle).1.startedTasks = [] ∧
    (executeTask noHooks (mkWorkflow [taskRunIfFalse]) "t" okOracle).2 = [] :=
  ⟨rfl, rfl, rfl, rfl⟩

/-- C7 (amended): a task whose `runIf` predicate is present and false is
simply not run: `executeTask` returns with the whole workflow state
unchanged and an empty trace — no hooks, no outgoing triggers, but also no
log entry and no state marking. -/
theorem spec_C7 (wf : WConfig) (s : WState) (n : String) (t : Task)
    (oracle : Nat → Except String RVal) (p : Results → Bool)
    (ht : recGet s.tasks n = some t)
    (hp : t.runIf = some p)
    (hf : p s.results = false) :
    executeTask wf s n oracle = (s, []) := by
  unfold executeTask
  split
  · rfl
  · rw [ht]
    simp [runIfBlocks, hp, hf]

/-- C7 witness: the amended theorem on the concrete `runIf`-false task. -/
theorem spec_C7_witness :
    executeTask noHooks (mkWorkflow [taskRunIfFalse]) "t" okOracle =
      (mkWorkflow [taskRunIfFalse], []) :=
  spec_C7 noHooks (mkWorkflow [taskRunIfFalse]) "t" taskRunIfFalse okOracle
    (fun _ => false) rfl rfl rfl

/-- C8: the claim "a task added with all declared dependencies already
completed is attempted to start immediately within the `addTask` call"
fails on the code: with `A` completed, `addTask` of a task depending on `A`
takes the subscription path — it registers a once-listener on the
already-emitted `task-completed:A` event and returns without any start
attempt (the started set is untouched). -/
theorem spec_C8 :
    "A" ∈ fixtureAfterA.completedTasks ∧
    (addTask fixtureAfterA taskDependingOnA).2 =
      Except.ok (AddResult.subscribed ["A"]) ∧
    (addTask fixtureAfterA taskDependingOnA).1.startedTasks =
      fixtureAfterA.startedTasks ∧
    ("T" ∈ (addTask fixtureAfterA taskDependingOnA).1.startedTasks → False) ∧
    (addTask fixtureAfterA taskDependingOnA).1.listeners = [("A", "T")] :=
  ⟨by decide, rfl, rfl, by decide, rfl⟩

/-- C9: the claim "`addTask` with an existing name is a logged no-op that
never throws" fails on the code: on a freshly constructed workflow
`this.logs.tasks` is still `undefined`, so the duplicate branch's
`this.logs.tasks[task.name]` read throws a `TypeError` instead of logging
the rejection. -/
theorem spec_C9 :
    hasKey (mkWorkflow [baseTask "A"]).tasks "A" = true ∧
    (mkWorkflow [baseTask "A"]).taskLogs = none ∧
    (addTask (mkWorkflow [baseTask "A"]) (baseTask "A")).2 =
      Except.error "TypeError: this.logs.tasks is undefined" :=
  ⟨rfl, rfl, rfl⟩

/-- C10 counterexample: `addTask` of a task with an unknown declared
dependency does raise the configuration error, but the insertion is not
atomic as claimed: by then the task is already registered in the task map
and its `TaskAdded` log entry is already appended (only the dependency map
is left unextended). -/
theorem spec_C10_counterexample :
    (addTask fixtureAfterA taskMissingDep).2 =
      Except.error "Error: dependency does not exist" ∧
    hasKey (addTask fixtureAfterA taskMissingDep).1.tasks "N" = true ∧
    taskLogEntries (addTask fixtureAfterA taskMissingDep).1 "N" =
      [{ event := "TaskAdded", attempt := none, status := "Pending" }] ∧
    (addTask fixtureAfterA taskMissingDep).1.dependencyList =
      fixtureAfterA.dependencyList :=
  ⟨rfl, rfl, rfl, rfl⟩

/-- C10 (amended): when a declared dependency is absent, `addTask` raises
the configuration error and leaves the dependency map and the listener
subscriptions unextended — but the new task is already registered in the
task map and its `TaskAdded` entry already logged: the failed insertion is
not atomic. -/
theorem spec_C10 (s : WState) (t : Task) (deps : List String)
    (m : List (String × List LogEntry))
    (hnew : hasKey s.tasks t.name = false)
    (hlogs : s.taskLogs = some m)
    (hdeps : t.dependencies = some deps)
    (hne : deps.isEmpty = false)
    (hmiss : deps.any (fun d => !(hasKey (recSet s.tasks t.name t) d)) = true) :
    (addTask s t).2 = Except.error "Error: dependency does not exist" ∧
    (addTask s t).1.dependencyList = s.dependencyList ∧
    (addTask s t).1.listeners = s.listeners ∧
    recGet (addTask s t).1.tasks t.name = some t ∧
    (addTask s t).1.taskLogs = some (pushLogEntry m t.name
      { event := "TaskAdded", attempt := none, status := "Pending" }) := by
  unfold addTask
  rw [if_neg (by simp [hnew])]
  simp only [hlogs, hdeps, hne, hmiss]
  simp [recGet_recSet_self]

/-- C6 counterexample: with all hooks present, the attempt trace of a
successful task invokes the workflow-level hook strictly before the
task-level one for both `onStart` and `onComplete` — the claimed
task-level-first order is violated. -/
theorem spec_C6_counterexample :
    Ev.wfHookStart "t" 1 ∈
      (executeTask allWfHooks (mkWorkflow [taskAllHooks]) "t" okOracle).2 ∧
    Ev.taskHookStart "t" 1 ∈
      (executeTask allWfHooks (mkWorkflow [taskAllHooks]) "t" okOracle).2 ∧
    Ev.wfHookComplete "t" 1 ∈
      (executeTask allWfHooks (mkWorkflow [taskAllHooks]) "t" okOracle).2 ∧
    Ev.taskHookComplete "t" 1 ∈
      (executeTask allWfHooks (mkWorkflow [taskAllHooks]) "t" okOracle).2 ∧
    ¬ (posOf (executeTask allWfHooks (mkWorkflow [taskAllHooks]) "t" okOracle).2
          (Ev.taskHookStart "t" 1) <
        posOf (executeTask allWfHooks (mkWorkflow [taskAllHooks]) "t" okOracle).2
          (Ev.wfHookStart "t" 1)) ∧
    ¬ (posOf (executeTask allWfHooks (mkWorkflow [taskAllHooks]) "t" okOracle).2
          (Ev.taskHookComplete "t" 1) <
        posOf (executeTask allWfHooks (mkWorkflow [taskAllHooks]) "t" okOracle).2
          (Ev.wfHookComplete "t" 1)) := by
  decide

/-- C6 (amended): within every attempt, when both the workflow-level and
the task-level hook of a kind are defined, the workflow-level hook is
invoked first — for `onStart` always, for `onComplete` on a successful
attempt, for `onError` on a failed attempt. -/
theorem spec_C6 (wf : WConfig) (t : Task) (n : String) (k : Nat)
    (out : Except String RVal)
    (h1 : wf.hasOnTaskStart = true) (h2 : t.hasOnStart = true)
    (h3 : wf.hasOnTaskComplete = true) (h4 : t.hasOnComplete = true)
    (h5 : wf.hasOnTaskError = true) (h6 : t.hasOnError = true) :
    posOf (attemptEvents wf t n k out) (Ev.wfHookStart n k) <
      posOf (attemptEvents wf t n k out) (Ev.taskHookStart n k) ∧
    (∀ v, out = Except.ok v →
      posOf (attemptEvents wf t n k out) (Ev.wfHookComplete n k) <
        posOf (attemptEvents wf t n k out) (Ev.taskHookComplete n k)) ∧
    (∀ e, out = Except.error e →
      posOf (attemptEvents wf t n k out) (Ev.wfHookError n k) <
        posOf (attemptEvents wf t n k out) (Ev.taskHookError n k)) := by
  rcases out with e | v <;>
    refine ⟨?_, ?_, ?_⟩ <;>
    simp [attemptEvents, attemptRest, hookList, h1, h2, h3, h4, h5, h6, posOf]

/-- C6 witness: the amended theorem on a concrete all-hooks attempt. -/
theorem spec_C6_witness :
    posOf (attemptEvents allWfHooks taskAllHooks "t" 1 (Except.ok "v"))
        (Ev.wfHookStart "t" 1) <
      posOf (attemptEvents allWfHooks taskAllHooks "t" 1 (Except.ok "v"))
        (Ev.taskHookStart "t" 1) :=
  (spec_C6 allWfHooks taskAllHooks "t" 1 (Except.ok "v")
    rfl rfl rfl rfl rfl rfl).1

theorem delaysOf_append (l1 l2 : List Ev) :
    delaysOf (l1 ++ l2) = delaysOf l1 ++ delaysOf l2 := by
  simp [delaysOf]

theorem delaysOf_cons_delay (d : Nat) (l : List Ev) :
    delaysOf (Ev.delay d :: l) = d :: delaysOf l := by
  simp [delaysOf]

/-- No event block of a single attempt contains an inter-attempt delay. -/
theorem delaysOf_attemptEvents (wf : WConfig) (t : Task) (n : String) (k : Nat)
    (out : Except String RVal) :
    delaysOf (attemptEvents wf t n k out) = [] := by
  rcases out with e | v <;>
    cases h1 : wf.hasOnTaskStart <;> cases h2 : t.hasOnStart <;>
    cases h3 : wf.hasOnTaskComplete <;> cases h4 : t.hasOnComplete <;>
    cases h5 : wf.hasOnTaskError <;> cases h6 : t.hasOnError <;>
    simp [attemptEvents, attemptRest, hookList, delaysOf, h1, h2, h3, h4, h5, h6]

/-- C5: a task with `retry = {maxAttempts: 3, delay: 500}` whose action
fails twice and then succeeds ends in the completed set, its log lists
exactly the attempt starts 1, 2, 3, the trace contains exactly two delays
of 500 time units, and the trace ends with the third attempt's event
block, which contains no delay. -/
theorem spec_C5 (wf : WConfig) (s : WState) (n : String) (t : Task)
    (oracle : Nat → Except String RVal) (v : RVal) (e1 e2 : String)
    (ht : recGet s.tasks n = some t)
    (hstart : n ∉ s.startedTasks)
    (hrun : t.runIf = none)
    (hretry : t.retry = some { maxAttempts := 3, delay := 500 })
    (ho1 : oracle 1 = Except.error e1)
    (ho2 : oracle 2 = Except.error e2)
    (ho3 : oracle 3 = Except.ok v)
    (hlog : recGet (s.taskLogs.getD []) n = none) :
    n ∈ (executeTask wf s n oracle).1.completedTasks ∧
    (taskLogEntries (executeTask wf s n oracle).1 n).filterMap
        (fun le => if le.event = "TaskStarted" then some le.attempt else none) =
      [some 1, some 2, some 3] ∧
    delaysOf (executeTask wf s n oracle).2 = [500, 500] ∧
    (∃ pre, (executeTask wf s n oracle).2 =
        pre ++ attemptEvents wf t n 3 (Except.ok v) ∧
      delaysOf (attemptEvents wf t n 3 (Except.ok v)) = []) := by
  have hmax : attemptNums (maxAttemptsOf t) = [1, 2, 3] := by
    rw [show maxAttemptsOf t = 3 by simp [maxAttemptsOf, hretry]]
    rfl
  have hd : retryDelayOf t = 500 := by simp [retryDelayOf, hretry]
  have hexec : executeTask wf s n oracle =
      runLoop wf t n oracle [1, 2, 3]
        (initTaskLog { s with startedTasks := addUnique s.startedTasks n } n) := by
    unfold executeTask
    rw [if_neg hstart, ht]
    simp [runIfBlocks, hrun, hmax]
  rw [hexec]
  simp only [runLoop, ho1, ho2, ho3, List.isEmpty_cons, Bool.false_eq_true,
    if_false, hd]
  have h0 : recGet ((s.taskLogs.getD []) ++ [(n, [])]) n = some [] := by
    rw [recGet_append_right _ _ _ (by simp [hasKey, hlog])]
    simp [recGet]
  refine ⟨?_, ?_, ?_, ?_⟩
  · simp only [checkIfAll_completedTasks, pushTaskLog_completedTasks]
    exact mem_addUnique_self _ _
  · simp only [taskLogEntries, checkIfAll_taskLogs, pushTaskLog_taskLogs,
      Option.getD_some, recGet_pushLogEntry_self, initTaskLog]
    rw [if_neg (by simp [hasKey, hlog])]
    simp only [Option.getD_some, h0]
    rfl
  · simp [delaysOf_append, delaysOf_cons_delay, delaysOf_attemptEvents]
  · refine ⟨attemptEvents wf t n 1 (Except.error e1) ++ Ev.delay 500 ::
      (attemptEvents wf t n 2 (Except.error e2) ++ [Ev.delay 500]), ?_, ?_⟩
    · simp
    · exact delaysOf_attemptEvents wf t n 3 (Except.ok v)

/-- C5 witness: the retry scenario on the concrete `taskRetry3` workflow
and the fail-fail-succeed oracle. -/
theorem spec_C5_witness :
    "t" ∈ (executeTask noHooks (mkWorkflow [taskRetry3]) "t" failTwiceOracle).1.completedTasks ∧
    delaysOf (executeTask noHooks (mkWorkflow [taskRetry3]) "t" failTwiceOracle).2 =
      [500, 500] :=
  ⟨(spec_C5 noHooks (mkWorkflow [taskRetry3]) "t" taskRetry3 failTwiceOracle
      "v" "boom" "boom" rfl (by decide) rfl rfl rfl rfl rfl rfl).1,
   (spec_C5 noHooks (mkWorkflow [taskRetry3]) "t" taskRetry3 failTwiceOracle
      "v" "boom" "boom" rfl (by decide) rfl rfl rfl rfl rfl rfl).2.2.1⟩

/-- C10 witness: instantiating the amended theorem on the concrete state
`fixtureAfterA` and the task with the unknown dependency `M`. -/
theorem spec_C10_witness :
    (addTask fixtureAfterA taskMissingDep).2 =
      Except.error "Error: dependency does not exist" ∧
    recGet (addTask fixtureAfterA taskMissingDep).1.tasks "N" =
      some taskMissingDep :=
  ⟨(spec_C10 fixtureAfterA taskMissingDep ["M"] _ rfl rfl rfl rfl rfl).1,
   (spec_C10 fixtureAfterA taskMissingDep ["M"] _ rfl rfl rfl rfl rfl).2.2.2.1⟩

end TaskWeaver
